import Mathlib

/-!
Verification of the drone-SDK sample driver (`main.cpp`) against its
specification.  The driver calls the vendor parser `GetIrPhotoTempInfo`
once on a hard-coded path and prints a one-line verdict.  The parser
itself ships as a binary library; where claims concern its contract, a
model built from the specification is used and marked as such.
-/

namespace Drone

/-- Calibration metadata record (`Autel_IR_INFO_S` in the SDK header);
the driver treats it as opaque.  Fields follow the spec glossary. -/
structure Autel_IR_INFO_S where
  emissivity : ℚ
  ambientTemp : ℚ
  reflectedTemp : ℚ
  distance : ℚ
deriving Repr, DecidableEq, Inhabited

/-- Scene statistics record (`TempStatInfo` in the SDK header). -/
structure TempStatInfo where
  minTemp : ℚ
  maxTemp : ℚ
  avgTemp : ℚ
deriving Repr, DecidableEq, Inhabited

/-- `std::map<std::string, Autel_IR_INFO_S>` receiver, modelled as an
association list. -/
abbrev MetadataMap := List (String × Autel_IR_INFO_S)

/-- `std::vector<std::vector<float>>` receiver: rows of temperature
samples.  Samples are modelled as rationals. -/
abbrev TemperatureField := List (List ℚ)

/-- Everything `GetIrPhotoTempInfo` hands back to its caller: the
integer status and the three receiver aggregates it populated. -/
structure ParseResult where
  status : Int
  statInfo : TempStatInfo
  mapIrInfo : MetadataMap
  vecTempArray : TemperatureField
deriving Repr, DecidableEq, Inhabited

/-- Observable effects of the driver: a call into the SDK, or a line
written to standard output. -/
inductive Event where
  | callParser (path : String) (width height : Nat) : Event
  | printLine (s : String) : Event
deriving Repr, DecidableEq

/-- The parser as the driver sees it: a black box from the call
arguments to a status plus populated receivers. -/
abbrev ParserFn := String → Nat → Nat → ParseResult

/-- The compile-time constant `filePath` from `main.cpp`. -/
def filePath : String := "../test/IRX_0001_south.jpg"

/-- Shallow embedding of `main` from `main.cpp`: instantiate the three
receivers, call the parser once with `filePath`, 640, 512, print
`parse ok.` (CRLF) when the status is zero and `parse fail.` (CRLF)
otherwise, and return 0.  `argc`/`argv` are accepted and unused, as in
the source.  The result is the event trace paired with the exit code. -/
def mainFn (parser : ParserFn) (argc : Nat) (argv : List String) :
    List Event × Int :=
  let r := parser filePath 640 512
  ([Event.callParser filePath 640 512,
    Event.printLine (if r.status = 0 then "parse ok.\r\n" else "parse fail.\r\n")],
   0)

/-- The lines the driver wrote to standard output, in order. -/
def stdoutOf (trace : List Event) : List String :=
  trace.filterMap fun e =>
    match e with
    | Event.printLine s => some s
    | _ => none

/-- The SDK calls the driver made, in order, with their arguments. -/
def callsOf (trace : List Event) : List (String × Nat × Nat) :=
  trace.filterMap fun e =>
    match e with
    | Event.callParser p w h => some (p, w, h)
    | _ => none

/-- A parser stub whose status is 0; receivers hold arbitrary data. -/
def okParser : ParserFn := fun _ _ _ =>
  { status := 0
    statInfo := { minTemp := 1, maxTemp := 3, avgTemp := 2 }
    mapIrInfo := []
    vecTempArray := [[2]] }

/-- A parser stub whose status is 1; receivers hold arbitrary data. -/
def failParser : ParserFn := fun _ _ _ =>
  { status := 1
    statInfo := { minTemp := 5, maxTemp := 9, avgTemp := 7 }
    mapIrInfo := []
    vecTempArray := [[5, 9]] }

/-- A second status-1 parser stub with different receiver contents. -/
def failParserB : ParserFn := fun _ _ _ =>
  { status := 1
    statInfo := { minTemp := 0, maxTemp := 0, avgTemp := 0 }
    mapIrInfo := [("k", default)]
    vecTempArray := [] }

/-- C1: on zero parser status the driver writes exactly one line,
`parse ok.` terminated by CRLF, and nothing else. -/
theorem driver_success_token (parser : ParserFn) (argc : Nat)
    (argv : List String) (h : (parser filePath 640 512).status = 0) :
    stdoutOf (mainFn parser argc argv).1 = ["parse ok.\r\n"] := by
  simp [mainFn, stdoutOf, h]

/-- Witness for C1 at a concrete zero-status parser. -/
theorem driver_success_token_witness :
    (okParser filePath 640 512).status = 0 ∧
    stdoutOf (mainFn okParser 1 ["prog"]).1 = ["parse ok.\r\n"] :=
  ⟨rfl, driver_success_token okParser 1 ["prog"] rfl⟩

/-- C2: on non-zero parser status the driver writes exactly one line,
`parse fail.` terminated by CRLF; and the driver's whole observable
behaviour is unchanged under any change to the receiver contents
(same non-zero status), i.e. the receivers are never read. -/
theorem driver_failure_silence (p q : ParserFn) (argc : Nat)
    (argv : List String) (h : (p filePath 640 512).status ≠ 0)
    (hq : (q filePath 640 512).status = (p filePath 640 512).status) :
    stdoutOf (mainFn p argc argv).1 = ["parse fail.\r\n"] ∧
    mainFn q argc argv = mainFn p argc argv := by
  constructor
  · simp [mainFn, stdoutOf, h]
  · simp [mainFn, hq]

/-- Witness for C2: two concrete status-1 parsers with different
receiver contents. -/
theorem driver_failure_silence_witness :
    (failParser filePath 640 512).status ≠ 0 ∧
    (failParserB filePath 640 512).status = (failParser filePath 640 512).status ∧
    (stdoutOf (mainFn failParser 2 ["prog", "x"]).1 = ["parse fail.\r\n"] ∧
      mainFn failParserB 2 ["prog", "x"] = mainFn failParser 2 ["prog", "x"]) :=
  ⟨by decide, rfl,
    driver_failure_silence failParser failParserB 2 ["prog", "x"] (by decide) rfl⟩

/-- C3: the driver makes exactly one SDK call, with the constant path
`../test/IRX_0001_south.jpg`, width 640 and height 512, and then
branches on the integer return, zero meaning success. -/
theorem driver_algorithm (parser : ParserFn) (argc : Nat)
    (argv : List String) :
    callsOf (mainFn parser argc argv).1 = [(filePath, 640, 512)] ∧
    filePath = "../test/IRX_0001_south.jpg" ∧
    stdoutOf (mainFn parser argc argv).1 =
      [if (parser filePath 640 512).status = 0
       then "parse ok.\r\n" else "parse fail.\r\n"] := by
  refine ⟨?_, rfl, ?_⟩
  · simp [mainFn, callsOf]
  · simp [mainFn, stdoutOf]

/-- C4: the process exit code is zero on every run, whatever status the
parser returns. -/
theorem driver_exit_zero (parser : ParserFn) (argc : Nat)
    (argv : List String) : (mainFn parser argc argv).2 = 0 := rfl

/-- C8: two runs that differ only in the command-line arguments have
identical event traces (hence identical SDK-call arguments and
standard output) and identical exit codes. -/
theorem driver_ignores_cli (parser : ParserFn) (argc argc2 : Nat)
    (argv argv2 : List String) :
    mainFn parser argc argv = mainFn parser argc2 argv2 := rfl

/-- C9: the driver's observable behaviour is a function of the parser's
status alone: equal statuses give identical traces and exit codes,
whatever the receivers hold. -/
theorem driver_depends_only_on_status (p q : ParserFn) (argc : Nat)
    (argv : List String)
    (h : (p filePath 640 512).status = (q filePath 640 512).status) :
    mainFn p argc argv = mainFn q argc argv := by
  simp [mainFn, h]

/-- Witness for C9: a status can be shared by parsers with entirely
different receiver contents. -/
theorem driver_depends_only_on_status_witness :
    (failParser filePath 640 512).status = (failParserB filePath 640 512).status ∧
    mainFn failParser 0 [] = mainFn failParserB 0 [] :=
  ⟨rfl, driver_depends_only_on_status failParser failParserB 0 [] rfl⟩

/-- C10: on every run the driver prints exactly one of the two
messages, never both and never neither: `parse ok.` iff the status is
zero, `parse fail.` iff it is any other value (negatives included). -/
theorem driver_message_dichotomy (parser : ParserFn) (argc : Nat)
    (argv : List String) :
    (stdoutOf (mainFn parser argc argv).1).length = 1 ∧
    (stdoutOf (mainFn parser argc argv).1 = ["parse ok.\r\n"] ↔
      (parser filePath 640 512).status = 0) ∧
    (stdoutOf (mainFn parser argc argv).1 = ["parse fail.\r\n"] ↔
      (parser filePath 640 512).status ≠ 0) := by
  refine ⟨?_, ?_, ?_⟩ <;>
    by_cases h : (parser filePath 640 512).status = 0 <;>
      simp [mainFn, stdoutOf, h]

/-- Modelled from the spec: the vendor container, missing from the
repository.  A JPEG whose application markers embed a calibration
metadata block and a raw 16-bit-per-sample thermal image with its own
dimensions. -/
structure IrFile where
  metadata : MetadataMap
  embWidth : Nat
  embHeight : Nat
  raw : List (List Nat)
deriving Repr, DecidableEq

/-- Modelled from the spec: the filesystem visible to the parser; a
path is either unreadable or holds a container. -/
abbrev FileSystem := String → Option IrFile

/-- Modelled from the spec: conversion of one raw sensor reading to a
physical temperature using the calibration metadata.  The exact
formula is vendor-defined, so it is kept as a parameter. -/
abbrev DecodeFn := MetadataMap → Nat → ℚ

/-- Modelled from the spec: validity of the thermal payload — the raw
grid matches the embedded dimensions, every sample fits in 16 bits,
and the calibration metadata is not empty. -/
def payloadOk (f : IrFile) : Bool :=
  (f.raw.length == f.embHeight) &&
  f.raw.all (fun row => (row.length == f.embWidth) &&
    row.all (fun s => s < 65536)) &&
  !f.metadata.isEmpty

/-- Min, max and average of a field in one linear pass over its
samples (all zero when the field is empty). -/
def computeStats (field : TemperatureField) : TempStatInfo :=
  match field.flatten with
  | [] => { minTemp := 0, maxTemp := 0, avgTemp := 0 }
  | x :: xs =>
    { minTemp := xs.foldl min x
      maxTemp := xs.foldl max x
      avgTemp := (x :: xs).sum / ((x :: xs).length : ℚ) }

/-- Modelled from the spec: the parser `GetIrPhotoTempInfo`, whose
implementation is a binary library missing from the repository.  It
opens the path, fails (status 1) when the file is unreadable, the
payload is invalid or the declared dimensions disagree with the
embedded ones; on success it decodes the raw grid row-major into the
field, copies the metadata into the map, computes the statistics in a
linear pass and returns status 0. -/
def GetIrPhotoTempInfo (fs : FileSystem) (decode : DecodeFn)
    (path : String) (width height : Nat) : ParseResult :=
  match fs path with
  | none => { status := 1, statInfo := default, mapIrInfo := [], vecTempArray := [] }
  | some f =>
    if payloadOk f = true ∧ width = f.embWidth ∧ height = f.embHeight then
      let field := f.raw.map (fun row => row.map (decode f.metadata))
      { status := 0
        statInfo := computeStats field
        mapIrInfo := f.metadata
        vecTempArray := field }
    else
      { status := 1, statInfo := default, mapIrInfo := [], vecTempArray := [] }

/-- Modelled from the spec: process state threaded through a call; the
parser keeps no caches and writes no side files, so a call leaves it
untouched. -/
structure ProcessState where
  fs : FileSystem

/-- Modelled from the spec: one synchronous parser transaction against
the process state. -/
def runGetIrPhotoTempInfo (decode : DecodeFn) (path : String)
    (width height : Nat) (st : ProcessState) : ParseResult × ProcessState :=
  (GetIrPhotoTempInfo st.fs decode path width height, st)

lemma foldl_min_le_init (x : ℚ) (xs : List ℚ) : xs.foldl min x ≤ x := by
  induction xs generalizing x with
  | nil => exact le_refl x
  | cons y ys ih => exact le_trans (ih (min x y)) (min_le_left x y)

lemma foldl_min_le_mem {b : ℚ} (x : ℚ) (xs : List ℚ) (hb : b ∈ xs) :
    xs.foldl min x ≤ b := by
  induction xs generalizing x with
  | nil => cases hb
  | cons y ys ih =>
    rcases List.mem_cons.mp hb with h | h
    · subst h
      exact le_trans (foldl_min_le_init (min x b) ys) (min_le_right x b)
    · exact ih (min x y) h

lemma init_le_foldl_max (x : ℚ) (xs : List ℚ) : x ≤ xs.foldl max x := by
  induction xs generalizing x with
  | nil => exact le_refl x
  | cons y ys ih => exact le_trans (le_max_left x y) (ih (max x y))

lemma mem_le_foldl_max {b : ℚ} (x : ℚ) (xs : List ℚ) (hb : b ∈ xs) :
    b ≤ xs.foldl max x := by
  induction xs generalizing x with
  | nil => cases hb
  | cons y ys ih =>
    rcases List.mem_cons.mp hb with h | h
    · subst h
      exact le_trans (le_max_right x b) (init_le_foldl_max (max x b) ys)
    · exact ih (max x y) h

lemma mul_length_le_sum {m : ℚ} {l : List ℚ} (h : ∀ t ∈ l, m ≤ t) :
    m * l.length ≤ l.sum := by
  induction l with
  | nil => simp
  | cons y ys ih =>
    have hy : m ≤ y := h y (List.mem_cons_self y ys)
    have hys : m * ys.length ≤ ys.sum := ih fun t ht => h t (List.mem_cons_of_mem y ht)
    have hlen : (((y :: ys).length : ℚ)) = (ys.length : ℚ) + 1 := by
      push_cast [List.length_cons]
      ring
    rw [List.sum_cons, hlen]
    calc m * ((ys.length : ℚ) + 1) = m + m * ys.length := by ring
    _ ≤ y + ys.sum := add_le_add hy hys

lemma sum_le_mul_length {m : ℚ} {l : List ℚ} (h : ∀ t ∈ l, t ≤ m) :
    l.sum ≤ m * l.length := by
  induction l with
  | nil => simp
  | cons y ys ih =>
    have hy : y ≤ m := h y (List.mem_cons_self y ys)
    have hys : ys.sum ≤ m * ys.length := ih fun t ht => h t (List.mem_cons_of_mem y ht)
    have hlen : (((y :: ys).length : ℚ)) = (ys.length : ℚ) + 1 := by
      push_cast [List.length_cons]
      ring
    rw [List.sum_cons, hlen]
    calc y + ys.sum ≤ m + m * ys.length := add_le_add hy hys
    _ = m * ((ys.length : ℚ) + 1) := by ring

/-- Every sample lies between the computed min and max, and the
computed avg is the exact arithmetic mean, which lies between them. -/
lemma computeStats_sound (field : TemperatureField) :
    (∀ t ∈ field.flatten,
      (computeStats field).minTemp ≤ t ∧ t ≤ (computeStats field).maxTemp) ∧
    (computeStats field).minTemp ≤ (computeStats field).avgTemp ∧
    (computeStats field).avgTemp ≤ (computeStats field).maxTemp ∧
    (computeStats field).avgTemp =
      field.flatten.sum / (field.flatten.length : ℚ) := by
  cases hj : field.flatten with
  | nil => refine ⟨by simp, ?_, ?_, ?_⟩ <;> simp [computeStats, hj]
  | cons x xs =>
    have hmem : ∀ t ∈ x :: xs, xs.foldl min x ≤ t ∧ t ≤ xs.foldl max x := by
      intro t ht
      rcases List.mem_cons.mp ht with h | h
      · rw [h]
        exact ⟨foldl_min_le_init x xs, init_le_foldl_max x xs⟩
      · exact ⟨foldl_min_le_mem x xs h, mem_le_foldl_max x xs h⟩
    have hlen : (0 : ℚ) < ((x :: xs).length : ℚ) := by
      have h0 : 0 < (x :: xs).length := List.length_pos.mpr (by simp)
      exact_mod_cast h0
    have hlow : xs.foldl min x * ((x :: xs).length : ℚ) ≤ (x :: xs).sum :=
      mul_length_le_sum fun t ht => (hmem t ht).1
    have hhigh : (x :: xs).sum ≤ xs.foldl max x * ((x :: xs).length : ℚ) :=
      sum_le_mul_length fun t ht => (hmem t ht).2
    refine ⟨?_, ?_, ?_, ?_⟩
    · intro t ht
      simpa [computeStats, hj] using hmem t ht
    · simp only [computeStats, hj]
      exact (le_div_iff₀ hlen).mpr hlow
    · simp only [computeStats, hj]
      exact (div_le_iff₀ hlen).mpr hhigh
    · simp [computeStats, hj]

/-- On success the parser took the branch that decoded a well-formed
payload with matching declared dimensions. -/
lemma success_shape (fs : FileSystem) (decode : DecodeFn) (path : String)
    (width height : Nat)
    (h : (GetIrPhotoTempInfo fs decode path width height).status = 0) :
    ∃ f, fs path = some f ∧ payloadOk f = true ∧ width = f.embWidth ∧
      height = f.embHeight ∧
      (GetIrPhotoTempInfo fs decode path width height).vecTempArray =
        f.raw.map (fun row => row.map (decode f.metadata)) ∧
      (GetIrPhotoTempInfo fs decode path width height).statInfo =
        computeStats (f.raw.map (fun row => row.map (decode f.metadata))) := by
  rcases hf : fs path with _ | f
  · unfold GetIrPhotoTempInfo at h
    rw [hf] at h
    simp at h
  · unfold GetIrPhotoTempInfo at h ⊢
    rw [hf] at h ⊢
    by_cases hc : payloadOk f = true ∧ width = f.embWidth ∧ height = f.embHeight
    · obtain ⟨hp, hw, hh⟩ := hc
      refine ⟨f, rfl, hp, hw, hh, ?_, ?_⟩ <;> simp [hp, hw, hh]
    · simp [hc] at h

/-- A concrete readable filesystem: one path holding a tiny
well-formed 2×3 container. -/
def sampleFs : FileSystem := fun p =>
  if p = "f.jpg" then
    some { metadata := [("cal", default)]
           embWidth := 2
           embHeight := 3
           raw := [[10, 20], [30, 40], [50, 60]] }
  else none

/-- A concrete decode function: raw value over ten, minus forty. -/
def sampleDecode : DecodeFn := fun _ s => (s : ℚ) / 10 - 40

/-- When every row of `l` has length `w`, flattening `l` yields
`l.length * w` elements. -/
lemma length_flatten_of_rows {α : Type} (w : Nat) (l : List (List α))
    (h : ∀ row ∈ l, row.length = w) : l.flatten.length = l.length * w := by
  induction l with
  | nil => simp
  | cons r rs ih =>
    simp only [List.flatten_cons, List.length_append, List.length_cons]
    rw [h r (List.mem_cons_self r rs),
      ih fun row hr => h row (List.mem_cons_of_mem r hr)]
    ring

/-- C5 (spec-modelled): on status 0 the field has exactly `height`
rows, every row has exactly `width` columns, and the total number of
samples is `height * width` (so 512 rows of 640 give 327680). -/
theorem parser_dimensional_consistency (fs : FileSystem)
    (decode : DecodeFn) (path : String) (width height : Nat)
    (h : (GetIrPhotoTempInfo fs decode path width height).status = 0) :
    (GetIrPhotoTempInfo fs decode path width height).vecTempArray.length = height ∧
    (∀ row ∈ (GetIrPhotoTempInfo fs decode path width height).vecTempArray,
      row.length = width) ∧
    (GetIrPhotoTempInfo fs decode path width height).vecTempArray.flatten.length =
      height * width := by
  obtain ⟨f, hf, hp, hw, hh, hfield, -⟩ :=
    success_shape fs decode path width height h
  rcases Bool.and_eq_true_iff.mp hp with ⟨hp1, -⟩
  rcases Bool.and_eq_true_iff.mp hp1 with ⟨hlen, hall⟩
  have hlen2 : f.raw.length = f.embHeight := eq_of_beq hlen
  have hrows : ∀ row ∈ f.raw, row.length = f.embWidth := by
    intro row hrow
    have hrw := List.all_eq_true.mp hall row hrow
    rcases Bool.and_eq_true_iff.mp hrw with ⟨hr, -⟩
    exact eq_of_beq hr
  subst hw hh
  have hcols : ∀ row ∈ (GetIrPhotoTempInfo fs decode path f.embWidth
      f.embHeight).vecTempArray, row.length = f.embWidth := by
    intro row hrow
    rw [hfield] at hrow
    obtain ⟨r0, hr0, rfl⟩ := List.mem_map.mp hrow
    simp [hrows r0 hr0]
  have hL : (GetIrPhotoTempInfo fs decode path f.embWidth
      f.embHeight).vecTempArray.length = f.embHeight := by
    simp [hfield, hlen2]
  refine ⟨hL, hcols, ?_⟩
  rw [length_flatten_of_rows f.embWidth _ hcols, hL]

/-- Witness for C5: the success branch at a concrete small file. -/
theorem parser_dimensional_consistency_witness :
    (GetIrPhotoTempInfo sampleFs sampleDecode "f.jpg" 2 3).status = 0 ∧
    ((GetIrPhotoTempInfo sampleFs sampleDecode "f.jpg" 2 3).vecTempArray.length = 3 ∧
     (∀ row ∈ (GetIrPhotoTempInfo sampleFs sampleDecode "f.jpg" 2 3).vecTempArray,
       row.length = 2) ∧
     (GetIrPhotoTempInfo sampleFs sampleDecode "f.jpg" 2 3).vecTempArray.flatten.length =
       3 * 2) :=
  ⟨by decide, parser_dimensional_consistency sampleFs sampleDecode "f.jpg" 2 3 (by decide)⟩

/-- C6 (spec-modelled): on status 0 the statistics are consistent with
the field: min is at most every sample, every sample is at most max,
min ≤ avg ≤ max, and avg is within 1/1000 of the arithmetic mean of
all samples (here it equals it exactly). -/
theorem parser_statistic_soundness (fs : FileSystem) (decode : DecodeFn)
    (path : String) (width height : Nat)
    (h : (GetIrPhotoTempInfo fs decode path width height).status = 0) :
    (∀ t ∈ (GetIrPhotoTempInfo fs decode path width height).vecTempArray.flatten,
      (GetIrPhotoTempInfo fs decode path width height).statInfo.minTemp ≤ t ∧
      t ≤ (GetIrPhotoTempInfo fs decode path width height).statInfo.maxTemp) ∧
    (GetIrPhotoTempInfo fs decode path width height).statInfo.minTemp ≤
      (GetIrPhotoTempInfo fs decode path width height).statInfo.avgTemp ∧
    (GetIrPhotoTempInfo fs decode path width height).statInfo.avgTemp ≤
      (GetIrPhotoTempInfo fs decode path width height).statInfo.maxTemp ∧
    |(GetIrPhotoTempInfo fs decode path width height).statInfo.avgTemp -
      (GetIrPhotoTempInfo fs decode path width height).vecTempArray.flatten.sum /
        ((GetIrPhotoTempInfo fs decode path width height).vecTempArray.flatten.length : ℚ)| ≤
      1 / 1000 := by
  obtain ⟨f, hf, hp, hw, hh, hfield, hstat⟩ :=
    success_shape fs decode path width height h
  obtain ⟨hmem, hlow, hhigh, havg⟩ :=
    computeStats_sound (f.raw.map (fun row => row.map (decode f.metadata)))
  rw [hfield, hstat]
  refine ⟨hmem, hlow, hhigh, ?_⟩
  rw [havg]
  simp

/-- Witness for C6 at the concrete small file. -/
theorem parser_statistic_soundness_witness :
    (GetIrPhotoTempInfo sampleFs sampleDecode "f.jpg" 2 3).status = 0 ∧
    ((∀ t ∈ (GetIrPhotoTempInfo sampleFs sampleDecode "f.jpg" 2 3).vecTempArray.flatten,
      (GetIrPhotoTempInfo sampleFs sampleDecode "f.jpg" 2 3).statInfo.minTemp ≤ t ∧
      t ≤ (GetIrPhotoTempInfo sampleFs sampleDecode "f.jpg" 2 3).statInfo.maxTemp) ∧
    (GetIrPhotoTempInfo sampleFs sampleDecode "f.jpg" 2 3).statInfo.minTemp ≤
      (GetIrPhotoTempInfo sampleFs sampleDecode "f.jpg" 2 3).statInfo.avgTemp ∧
    (GetIrPhotoTempInfo sampleFs sampleDecode "f.jpg" 2 3).statInfo.avgTemp ≤
      (GetIrPhotoTempInfo sampleFs sampleDecode "f.jpg" 2 3).statInfo.maxTemp ∧
    |(GetIrPhotoTempInfo sampleFs sampleDecode "f.jpg" 2 3).statInfo.avgTemp -
      (GetIrPhotoTempInfo sampleFs sampleDecode "f.jpg" 2 3).vecTempArray.flatten.sum /
        ((GetIrPhotoTempInfo sampleFs sampleDecode "f.jpg" 2 3).vecTempArray.flatten.length : ℚ)| ≤
      1 / 1000) :=
  ⟨by decide,
    parser_statistic_soundness sampleFs sampleDecode "f.jpg" 2 3 (by decide)⟩

/-- C7 (spec-modelled): the parser is pure with respect to process
state — two successive calls on the same path and dimensions return
identical fields, identical statistics and the same status, and leave
the process state unchanged. -/
theorem parser_deterministic (decode : DecodeFn) (path : String)
    (width height : Nat) (st : ProcessState) :
    (runGetIrPhotoTempInfo decode path width height st).1.vecTempArray =
      (runGetIrPhotoTempInfo decode path width height
        (runGetIrPhotoTempInfo decode path width height st).2).1.vecTempArray ∧
    (runGetIrPhotoTempInfo decode path width height st).1.statInfo =
      (runGetIrPhotoTempInfo decode path width height
        (runGetIrPhotoTempInfo decode path width height st).2).1.statInfo ∧
    (runGetIrPhotoTempInfo decode path width height st).1.status =
      (runGetIrPhotoTempInfo decode path width height
        (runGetIrPhotoTempInfo decode path width height st).2).1.status ∧
    (runGetIrPhotoTempInfo decode path width height st).2 = st :=
  ⟨rfl, rfl, rfl, rfl⟩

end Drone
